import Mathlib

/-!
Verification of the Welsh language pair scraper (src/script.py).

The script mines English/Welsh parallel text from gov.wales: it enumerates
sitemaps, resolves bilingual page pairs, scrapes announcement-article blocks,
filters candidate pairs with a layered quality heuristic, and writes accepted
pairs as JSON lines.

Modelling conventions
  * External collaborators (HTTP fetch, HTML parse, markdownify, langdetect)
    are oracle parameters: a fetch that raises is modelled as returning none.
  * Python floats are modelled with the rationals: the script only compares
    the length ratio against 0.5 and 0.2.
  * Python str.split(), str.lower(), str.isupper(), regex \d and [.!?] are
    modelled on the ASCII fragment, which covers every comparison the
    script performs on its fixed word lists and digit runs.
  * A Python function that can raise is modelled with Except or Option.
-/

namespace WelshScraper

/-- Whitespace as recognised by Python str.split (ASCII fragment). -/
def isPySpace (c : Char) : Bool :=
  c = ' ' || c = '\t' || c = '\n' || c = '\x0d' || c = '\x0b' || c = '\x0c'

/-- Helper for `pySplit`: accumulate the current word (reversed) while
scanning; whitespace runs separate words and empty words are dropped,
matching Python str.split with no argument. -/
def pySplitAux (cur : List Char) : List Char → List (List Char)
  | [] => if cur.isEmpty then [] else [cur.reverse]
  | c :: cs =>
    if isPySpace c then
      if cur.isEmpty then pySplitAux [] cs
      else cur.reverse :: pySplitAux [] cs
    else pySplitAux (c :: cur) cs

/-- Python text.split(): whitespace-separated tokens, empties dropped. -/
def pySplit (l : List Char) : List (List Char) := pySplitAux [] l

/-- Python str.lower on one character (ASCII fragment). -/
def lowerChar (c : Char) : Char := c.toLower

/-- Python str.isupper on one character (ASCII fragment). -/
def isUpperPy (c : Char) : Bool := c.isUpper

/-- ASCII digit, the fragment of regex \d the script relies on. -/
def isDigitPy (c : Char) : Bool := c.isDigit

/-- Sentence-terminal punctuation class [.!?] of script.py line 145. -/
def isSentencePunct (c : Char) : Bool := c = '.' || c = '!' || c = '?'

/-- Maximal runs of characters satisfying p, in order: the list
re.findall(r"<class>+", text) returns. `cur` is the current run, reversed. -/
def runsAux (p : Char → Bool) (cur : List Char) : List Char → List (List Char)
  | [] => if cur.isEmpty then [] else [cur.reverse]
  | c :: cs =>
    if p c then runsAux p (c :: cur) cs
    else if cur.isEmpty then runsAux p [] cs
    else cur.reverse :: runsAux p [] cs

/-- re.findall(r"\d+", text): the maximal digit runs of the text. -/
def digitRuns (l : List Char) : List (List Char) := runsAux isDigitPy [] l

/-- len(re.findall(r"[.!?]+", text)): number of maximal sentence-punctuation
runs (script.py lines 145 and 146). -/
def sentenceCount (l : List Char) : Nat := (runsAux isSentencePunct [] l).length

/-- Helper for paragraph counting: Python text.split("\n\n"), leftmost
non-overlapping cuts, empty parts kept. `cur` is the current part, reversed. -/
def paraSplitAux (cur : List Char) : List Char → List (List Char)
  | '\n' :: '\n' :: rest => cur.reverse :: paraSplitAux [] rest
  | c :: rest => paraSplitAux (c :: cur) rest
  | [] => [cur.reverse]

/-- len(text.split("\n\n")): paragraph count of script.py lines 151 and 152. -/
def paraCount (l : List Char) : Nat := (paraSplitAux [] l).length

/-- The fixed common English function words of script.py line 110,
built with the same split call the script uses. -/
def common_en_words : List (List Char) :=
  pySplit "the and of to in is for on that by a are you we with as at from have".toList

/-- The fixed common Welsh function words of script.py line 111. -/
def common_cy_words : List (List Char) :=
  pySplit "y a i yn o ar mae am gyda bod gan ei yr yng chi yw".toList

/-- extract_probable_entities (script.py lines 89 to 92): lowercased tokens
whose first character is uppercase and whose length exceeds one. The Python
function returns a set used only for intersection tests, so a list with
possible duplicates is an equivalent model. -/
def extract_probable_entities (text : List Char) : List (List Char) :=
  ((pySplit text).filter fun w =>
    match w with
    | [] => false
    | c :: rest => isUpperPy c && !rest.isEmpty).map (List.map lowerChar)

/-- quality_check (script.py lines 94 to 157). `det` models langdetect.detect:
none models a LangDetectException (only that exception is caught). The result
is Except: the error value models the ZeroDivisionError raised on line 97 when
both texts have no tokens. Set-cardinality tests of the script are modelled
with duplicate-preserving list filters, which agree on the emptiness tests the
script performs. -/
def quality_check (det : String → Option String) (en_text cy_text : String) :
    Except String Bool :=
  let en_length := (pySplit en_text.toList).length
  let cy_length := (pySplit cy_text.toList).length
  if max en_length cy_length = 0 then .error "ZeroDivisionError" else
  let length_ratio : ℚ := mkRat (min en_length cy_length) (max en_length cy_length)
  if en_length < 10 ∧ cy_length < 10 ∧ mkRat 1 2 < length_ratio then .ok true
  else if length_ratio < mkRat 1 5 then .ok false
  else
  let en_words := pySplit (en_text.toList.map lowerChar)
  let cy_words := pySplit (cy_text.toList.map lowerChar)
  let en_common_count := (common_en_words.filter fun w => en_words.contains w).length
  let cy_common_count := (common_cy_words.filter fun w => cy_words.contains w).length
  if en_common_count = 0 ∨ cy_common_count = 0 then .ok false
  else
  let tail_result : Except String Bool :=
    let en_entities := extract_probable_entities en_text.toList
    let cy_entities := extract_probable_entities cy_text.toList
    let en_numbers := digitRuns en_text.toList
    let cy_numbers := digitRuns cy_text.toList
    if (en_entities.filter fun x => cy_entities.contains x) ≠ [] ∨
       (en_numbers.filter fun x => cy_numbers.contains x) ≠ [] then .ok true
    else if ((sentenceCount en_text.toList : Int) - sentenceCount cy_text.toList).natAbs ≤ 1
    then .ok true
    else if paraCount en_text.toList = paraCount cy_text.toList then .ok true
    else .ok false
  match det en_text, det cy_text with
  | some en_detected, some cy_detected =>
    if en_detected ≠ "en" ∧ cy_detected ≠ "cy" then .ok false else tail_result
  | _, _ => tail_result

instance {ε α : Type} [DecidableEq ε] [DecidableEq α] : DecidableEq (Except ε α) := fun a b =>
  match a, b with
  | .error e, .error f =>
    if h : e = f then .isTrue (by rw [h]) else .isFalse (by intro hc; cases hc; exact h rfl)
  | .ok x, .ok y =>
    if h : x = y then .isTrue (by rw [h]) else .isFalse (by intro hc; cases hc; exact h rfl)
  | .error _, .ok _ => .isFalse (by intro hc; cases hc)
  | .ok _, .error _ => .isFalse (by intro hc; cases hc)

/-- A detector that always raises LangDetectException, for concrete runs. -/
def detNone : String → Option String := fun _ => none

/-! ## Sitemap enumeration

get_urls (script.py lines 41 to 48) fetches one sitemap and returns the list
of loc texts; any exception from session.get or ET.fromstring propagates to
the caller. It is modelled by an oracle `fetchUrls : String → Option (List
String)` where none models a raised exception. The lru_cache decorator only
memoizes a deterministic call and does not change the value semantics.

The enumeration loop of main (script.py lines 181 to 185) calls get_urls on
each child sitemap with no per-iteration exception handler: an exception
aborts the loop and is only caught by the top-level handler of main. -/

/-- The sitemap loop of main (script.py lines 181 to 185): extend the page
list with each sitemap until an exception (error value: the failing sitemap
URL) escapes to the top-level handler. -/
def collect_pages (fetchUrls : String → Option (List String)) :
    List String → Except String (List String)
  | [] => .ok []
  | u :: rest =>
    match fetchUrls u with
    | none => .error u
    | some urls =>
      match collect_pages fetchUrls rest with
      | .ok acc => .ok (urls ++ acc)
      | .error e => .error e

/-! ## HTML document model and the content scraper

BeautifulSoup, markdownify and the HTTP session are external collaborators.
A parsed document is a forest of nodes; soup.find_all iterates over all
descendants in document order (preorder) and filters by tag and class. -/

/-- A parsed HTML node: an element with tag, class list and children, or a
text node. -/
inductive Node where
  | elem (tag : String) (classes : List String) (children : List Node)
  | text (s : String)

/-- The match predicate of soup.find_all("div", class_="announcement-item__article")
in script.py line 73. -/
def isAnnouncementArticle : Node → Bool
  | .elem tag classes _ => tag = "div" && classes.contains "announcement-item__article"
  | .text _ => false

mutual

/-- All nodes of a subtree in document order: the node itself, then the
descendants of each child in order (preorder traversal). -/
def descendants : Node → List Node
  | .elem tag classes children => .elem tag classes children :: descendantsList children
  | .text s => [.text s]

/-- Preorder traversal of a forest, left to right. -/
def descendantsList : List Node → List Node
  | [] => []
  | n :: ns => descendants n ++ descendantsList ns

end

/-- soup.find_all("div", class_="announcement-item__article"): every matching
element of the document, in document order. -/
def find_all (doc : List Node) : List Node :=
  (descendantsList doc).filter isAnnouncementArticle

/-- get_announcement_articles (script.py lines 72 to 75): markdownify each
matched element with hyperlink tags stripped. `mdf` is the external
markdownify collaborator md(str(article), strip=["a"]). -/
def get_announcement_articles (mdf : Node → String) (doc : List Node) : List String :=
  (find_all doc).map mdf

/-- The module-level binding of the name REQUEST_DELAY referenced by
script.py line 80: the script never defines it (none), so evaluating the
name raises NameError inside the try of scrape_page. -/
def REQUEST_DELAY : Option Nat := none

/-- scrape_page (script.py lines 77 to 87), parametrised by the value of the
module-level REQUEST_DELAY binding. Inside the try block the script first
evaluates REQUEST_DELAY (a NameError when the binding is absent), then
fetches and parses the page (`fetchDoc url = none` models a raised
exception), then extracts the articles; the except handler turns any raised
exception into the empty list. -/
def scrape_page (request_delay : Option Nat) (fetchDoc : String → Option (List Node))
    (mdf : Node → String) (url : String) : List String :=
  match request_delay with
  | none => []
  | some _ =>
    match fetchDoc url with
    | none => []
    | some doc => get_announcement_articles mdf doc

/-! ## Output records

main (script.py lines 207 to 217) writes one record per accepted pair with
json.dump(..., ensure_ascii=False) followed by a newline. The json module
is external; its string encoder with ensure_ascii=False escapes the
backslash, the double quote, and the named control characters, writes the
remaining characters below 0x20 as a lowercase hex escape of the form
backslash-u00xy, and writes every other character (all non-ASCII included)
literally. -/

/-- Lowercase hexadecimal digit, as emitted by the json module. -/
def hexDigit (n : Nat) : Char := "0123456789abcdef".toList.getD n '0'

/-- The json string encoder on one character (ensure_ascii=False). -/
def escapeChar (c : Char) : List Char :=
  if c = '\\' then ['\\', '\\']
  else if c = '"' then ['\\', '"']
  else if c = '\x08' then ['\\', 'b']
  else if c = '\x0c' then ['\\', 'f']
  else if c = '\n' then ['\\', 'n']
  else if c = '\x0d' then ['\\', 'r']
  else if c = '\t' then ['\\', 't']
  else if c.toNat < 0x20 then
    ['\\', 'u', '0', '0', hexDigit (c.toNat / 16), hexDigit (c.toNat % 16)]
  else [c]

/-- The json string encoder (ensure_ascii=False): quoted, characterwise
escaped text. -/
def encodeString (l : List Char) : List Char :=
  '"' :: (l.map escapeChar).flatten ++ ['"']

/-- One output line of main (script.py line 214): the serialization of the
dict with the keys en, cy, url in insertion order, with the default
separators of json.dump. -/
def recordLine (en cy url : String) : List Char :=
  "\x7b\"en\": ".toList ++ encodeString en.toList ++
  ", \"cy\": ".toList ++ encodeString cy.toList ++
  ", \"url\": ".toList ++ encodeString url.toList ++ ['\x7d']

/-- Hexadecimal digit value of a character, as a JSON reader accepts it. -/
def hexVal (c : Char) : Option Nat :=
  if '0' ≤ c ∧ c ≤ '9' then some (c.toNat - '0'.toNat)
  else if 'a' ≤ c ∧ c ≤ 'f' then some (c.toNat - 'a'.toNat + 10)
  else if 'A' ≤ c ∧ c ≤ 'F' then some (c.toNat - 'A'.toNat + 10)
  else none

/-- JSON string body reader: consumes escaped characters until the closing
quote and returns the decoded text with the unconsumed remainder. Raw
control characters are rejected, as JSON requires. -/
def parseStrAux (acc : List Char) : List Char → Option (List Char × List Char)
  | [] => none
  | c :: rest =>
    if c = '"' then some (acc.reverse, rest)
    else if c = '\\' then
      match rest with
      | [] => none
      | e :: rest2 =>
        if e = '"' then parseStrAux ('"' :: acc) rest2
        else if e = '\\' then parseStrAux ('\\' :: acc) rest2
        else if e = '/' then parseStrAux ('/' :: acc) rest2
        else if e = 'b' then parseStrAux ('\x08' :: acc) rest2
        else if e = 'f' then parseStrAux ('\x0c' :: acc) rest2
        else if e = 'n' then parseStrAux ('\n' :: acc) rest2
        else if e = 'r' then parseStrAux ('\x0d' :: acc) rest2
        else if e = 't' then parseStrAux ('\t' :: acc) rest2
        else if e = 'u' then
          match rest2 with
          | h1 :: h2 :: h3 :: h4 :: rest3 =>
            match hexVal h1, hexVal h2, hexVal h3, hexVal h4 with
            | some v1, some v2, some v3, some v4 =>
              if ((v1 * 16 + v2) * 16 + v3) * 16 + v4 < 0xd800 then
                parseStrAux (Char.ofNat (((v1 * 16 + v2) * 16 + v3) * 16 + v4) :: acc) rest3
              else none
            | _, _, _, _ => none
          | _ => none
        else none
    else if c.toNat < 0x20 then none
    else parseStrAux (c :: acc) rest

/-- JSON string reader: an opening quote followed by the string body. -/
def parseJsonStr : List Char → Option (List Char × List Char)
  | '"' :: rest => parseStrAux [] rest
  | _ => none

/-- Consume an exact literal, returning the remainder. -/
def dropLit : List Char → List Char → Option (List Char)
  | [], l => some l
  | _ :: _, [] => none
  | p :: ps, c :: cs => if c = p then dropLit ps cs else none

/-- Reader for one output line: accepts exactly a JSON object with the three
string keys en, cy, url in that order and nothing after the closing brace,
and returns the three decoded strings. -/
def parseRecord (l : List Char) : Option (List Char × List Char × List Char) := do
  let l1 ← dropLit "\x7b\"en\": ".toList l
  let (en, l2) ← parseJsonStr l1
  let l3 ← dropLit ", \"cy\": ".toList l2
  let (cy, l4) ← parseJsonStr l3
  let l5 ← dropLit ", \"url\": ".toList l4
  let (url, l6) ← parseJsonStr l5
  match l6 with
  | ['\x7d'] => some (en, cy, url)
  | _ => none

/-! ## Per-pair processing and the two-phase run -/

/-- The filter loop of process_url_pair (script.py lines 164 to 170): keep
the zipped blocks that pass quality_check, tagging each with the English
page URL. A ZeroDivisionError raised by quality_check propagates. -/
def valid_pairs_loop (det : String → Option String) (en_url : String) :
    List (String × String) → List (String × String × String) →
    Except String (List (String × String × String))
  | [], acc => .ok acc
  | (en, cy) :: rest, acc =>
    match quality_check det en cy with
    | .error e => .error e
    | .ok true => valid_pairs_loop det en_url rest (acc ++ [(en, cy, en_url)])
    | .ok false => valid_pairs_loop det en_url rest acc

/-- process_url_pair (script.py lines 159 to 172): scrape both pages, zip
the block sequences and keep the pairs that pass quality_check. -/
def process_url_pair (request_delay : Option Nat)
    (fetchDoc : String → Option (List Node)) (mdf : Node → String)
    (det : String → Option String) (en_url cy_url : String) :
    Except String (List (String × String × String)) :=
  let en_articles := scrape_page request_delay fetchDoc mdf en_url
  let cy_articles := scrape_page request_delay fetchDoc mdf cy_url
  valid_pairs_loop det en_url (en_articles.zip cy_articles) []

/-- The Phase 2 write loop of main (script.py lines 207 to 217): one record
line per accepted pair of each unit. A unit whose future raises stops the
run (the exception is only caught by the top-level handler), so no further
line is written. Completion order of the thread pool is modelled as list
order; no claim under verification depends on the order. -/
def phase2_lines (request_delay : Option Nat)
    (fetchDoc : String → Option (List Node)) (mdf : Node → String)
    (det : String → Option String) : List (String × String) → List (List Char)
  | [] => []
  | (en_url, cy_url) :: rest =>
    match process_url_pair request_delay fetchDoc mdf det en_url cy_url with
    | .error _ => []
    | .ok results =>
      results.map (fun r => recordLine r.1 r.2.1 r.2.2) ++
      phase2_lines request_delay fetchDoc mdf det rest

/-- The two phases of main (script.py lines 189 to 217) after sitemap
enumeration. `resolver` models find_language_pair (script.py lines 59 to
70), which returns none when the fetch raises or no language-switch link is
found. The result records the Phase 1 pair list, the number of Phase 2
units submitted to the pool (one per pair), and the final content of the
output file, which is opened with mode w (so its content starts empty) and
receives each record line followed by a newline. -/
def main_phases (resolver : String → Option (String × String))
    (request_delay : Option Nat) (fetchDoc : String → Option (List Node))
    (mdf : Node → String) (det : String → Option String)
    (all_page_urls : List String) :
    List (String × String) × Nat × String :=
  let url_pairs := all_page_urls.filterMap resolver
  let lines := phase2_lines request_delay fetchDoc mdf det url_pairs
  (url_pairs, url_pairs.length, String.mk ((lines.map (fun l => l ++ ['\n'])).flatten))

/-- A one-element document containing exactly one announcement article. -/
def oneArticleDoc : List Node :=
  [Node.elem "div" ["announcement-item__article"] [Node.text "Mae y the"]]

/-- A sitemap fetcher where s1 and s2 succeed and everything else raises. -/
def c1FetchOk : String → Option (List String) := fun v =>
  if v = "s1" then some ["p1", "p2"] else if v = "s2" then some ["p3"] else none

/-- A sitemap fetcher where only the second sibling s2 succeeds. -/
def c1FetchFail : String → Option (List String) := fun v =>
  if v = "s2" then some ["p1"] else none

/-! ## Sanity checks by evaluation -/

/-- The length ratio is written with mkRat so that it evaluates; this lemma
records that mkRat a b is the true division min/max the script computes. -/
theorem mkRat_eq_nat_div (a b : ℕ) : (mkRat a b : ℚ) = (a : ℚ) / (b : ℚ) := by
  rw [Rat.mkRat_eq_div]
  push_cast
  rfl

example : pySplit "The cat sat".toList = ["The".toList, "cat".toList, "sat".toList] := by
  decide

example : quality_check detNone "The cat sat" "Y gath yn eistedd" = .ok true := by decide

example : quality_check detNone "" "" = .error "ZeroDivisionError" := by decide

example :
    parseRecord (recordLine "Croeso\nâ \"chi\"" "ŵy a heddiw\x01" "https://www.gov.wales/x") =
      some ("Croeso\nâ \"chi\"".toList, "ŵy a heddiw\x01".toList,
        "https://www.gov.wales/x".toList) := by decide

/-! ## Round trip of the output encoding -/

theorem hexVal_hexDigit : ∀ d, d < 16 → hexVal (hexDigit d) = some d := by decide

/-- Reading one encoded character prepends exactly that character. -/
theorem parseStrAux_escapeChar (c : Char) (acc tail : List Char) :
    parseStrAux acc (escapeChar c ++ tail) = parseStrAux (c :: acc) tail := by
  by_cases h1 : c = '\\'
  · subst h1
    rw [show escapeChar '\\' ++ tail = '\\' :: '\\' :: tail from rfl, parseStrAux.eq_def]
    simp
  by_cases h2 : c = '"'
  · subst h2
    rw [show escapeChar '"' ++ tail = '\\' :: '"' :: tail from rfl, parseStrAux.eq_def]
    simp
  by_cases h3 : c = '\x08'
  · subst h3
    rw [show escapeChar '\x08' ++ tail = '\\' :: 'b' :: tail from rfl, parseStrAux.eq_def]
    simp
  by_cases h4 : c = '\x0c'
  · subst h4
    rw [show escapeChar '\x0c' ++ tail = '\\' :: 'f' :: tail from rfl, parseStrAux.eq_def]
    simp
  by_cases h5 : c = '\n'
  · subst h5
    rw [show escapeChar '\n' ++ tail = '\\' :: 'n' :: tail from rfl, parseStrAux.eq_def]
    simp
  by_cases h6 : c = '\x0d'
  · subst h6
    rw [show escapeChar '\x0d' ++ tail = '\\' :: 'r' :: tail from rfl, parseStrAux.eq_def]
    simp
  by_cases h7 : c = '\t'
  · subst h7
    rw [show escapeChar '\t' ++ tail = '\\' :: 't' :: tail from rfl, parseStrAux.eq_def]
    simp
  by_cases h8 : c.toNat < 0x20
  · have h0 : hexVal '0' = some 0 := rfl
    have hdiv : hexVal (hexDigit (c.toNat / 16)) = some (c.toNat / 16) :=
      hexVal_hexDigit _ (by omega)
    have hmod : hexVal (hexDigit (c.toNat % 16)) = some (c.toNat % 16) :=
      hexVal_hexDigit _ (by omega)
    have hval : ((0 * 16 + 0) * 16 + c.toNat / 16) * 16 + c.toNat % 16 = c.toNat := by omega
    have hesc : escapeChar c =
        ['\\', 'u', '0', '0', hexDigit (c.toNat / 16), hexDigit (c.toNat % 16)] := by
      simp only [escapeChar, if_neg h1, if_neg h2, if_neg h3, if_neg h4, if_neg h5,
        if_neg h6, if_neg h7, if_pos h8]
    rw [hesc]
    rw [show (['\\', 'u', '0', '0', hexDigit (c.toNat / 16), hexDigit (c.toNat % 16)] :
        List Char) ++ tail =
        '\\' :: 'u' :: '0' :: '0' :: hexDigit (c.toNat / 16) :: hexDigit (c.toNat % 16) :: tail
      from rfl]
    rw [parseStrAux.eq_def]
    simp only [h0, hdiv, hmod, hval]
    rw [if_pos (show c.toNat < 0xd800 by omega), Char.ofNat_toNat]
    simp
  · have hesc : escapeChar c = [c] := by
      simp only [escapeChar, if_neg h1, if_neg h2, if_neg h3, if_neg h4, if_neg h5,
        if_neg h6, if_neg h7, if_neg h8]
    rw [hesc, List.cons_append, List.nil_append, parseStrAux.eq_def]
    simp only [if_neg h2, if_neg h1, if_neg h8]

/-- Reading back an encoded text recovers it. -/
theorem parseStrAux_encode (s : List Char) :
    ∀ (acc rest : List Char),
      parseStrAux acc ((s.map escapeChar).flatten ++ '"' :: rest) =
        some (acc.reverse ++ s, rest) := by
  induction s with
  | nil =>
    intro acc rest
    simp only [List.map_nil, List.flatten_nil, List.nil_append]
    rw [parseStrAux.eq_def]
    simp
  | cons c s ih =>
    intro acc rest
    simp only [List.map_cons, List.flatten_cons, List.append_assoc]
    rw [parseStrAux_escapeChar, ih]
    simp

/-- Reading back an encoded JSON string recovers it and the remainder. -/
theorem parseJsonStr_encode (s rest : List Char) :
    parseJsonStr (encodeString s ++ rest) = some (s, rest) := by
  simp only [encodeString, List.cons_append, List.append_assoc, List.singleton_append]
  rw [parseJsonStr, parseStrAux_encode]
  simp

theorem dropLit_append (p rest : List Char) : dropLit p (p ++ rest) = some rest := by
  induction p with
  | nil => rfl
  | cons c p ih => simp [dropLit, ih]

/-- Every line the writer produces parses back to exactly its three fields. -/
theorem parseRecord_recordLine (en cy url : String) :
    parseRecord (recordLine en cy url) =
      some (en.toList, cy.toList, url.toList) := by
  simp only [recordLine, parseRecord, List.append_assoc, dropLit_append, Option.bind_eq_bind,
    Option.some_bind, parseJsonStr_encode]

theorem hexDigit_ne_newline (d : Nat) : hexDigit d ≠ '\n' := by
  by_cases h : d < 16
  · interval_cases d <;> decide
  · unfold hexDigit
    rw [List.getD_eq_default]
    · decide
    · simpa using by omega

/-- The escape of any character never contains a newline, so records stay on
one line. -/
theorem escapeChar_ne_newline (c x : Char) (hx : x ∈ escapeChar c) : x ≠ '\n' := by
  rintro rfl
  unfold escapeChar at hx
  split_ifs at hx with h1 h2 h3 h4 h5 h6 h7 h8
  · simp at hx
  · simp at hx
  · simp at hx
  · simp at hx
  · simp at hx
  · simp at hx
  · simp at hx
  · simp at hx
    rcases hx with h | h
    · exact hexDigit_ne_newline _ h.symm
    · exact hexDigit_ne_newline _ h.symm
  · simp at hx
    subst hx
    exact h8 (by decide)

theorem encode_flat_no_newline (s : List Char) : '\n' ∉ (s.map escapeChar).flatten := by
  induction s with
  | nil => simp
  | cons a s ih =>
    simp only [List.map_cons, List.flatten_cons, List.mem_append]
    rintro (h | h)
    · exact escapeChar_ne_newline a _ h rfl
    · exact ih h

theorem encodeString_no_newline (s : List Char) : '\n' ∉ encodeString s := by
  intro h
  rcases List.mem_cons.mp h with h | h
  · exact absurd h (by decide)
  rcases List.mem_append.mp h with h | h
  · exact encode_flat_no_newline _ h
  · exact absurd h (by decide)

/-- A record line contains no newline: each record is a single line. -/
theorem recordLine_no_newline (en cy url : String) : '\n' ∉ recordLine en cy url := by
  intro h
  unfold recordLine at h
  rcases List.mem_append.mp h with h | h
  · rcases List.mem_append.mp h with h | h
    · rcases List.mem_append.mp h with h | h
      · rcases List.mem_append.mp h with h | h
        · rcases List.mem_append.mp h with h | h
          · rcases List.mem_append.mp h with h | h
            · exact absurd h (by decide)
            · exact encodeString_no_newline _ h
          · exact absurd h (by decide)
        · exact encodeString_no_newline _ h
      · exact absurd h (by decide)
    · exact encodeString_no_newline _ h
  · exact absurd h (by decide)

/-- Every triple the filter loop returns carries the English page URL. -/
theorem valid_pairs_loop_url (det : String → Option String) (en_url : String) :
    ∀ (l : List (String × String)) (acc res : List (String × String × String)),
      valid_pairs_loop det en_url l acc = .ok res →
      (∀ r ∈ acc, r.2.2 = en_url) → ∀ r ∈ res, r.2.2 = en_url := by
  intro l
  induction l with
  | nil =>
    intro acc res h hacc
    simp only [valid_pairs_loop] at h
    cases h
    exact hacc
  | cons p rest ih =>
    intro acc res h hacc
    obtain ⟨en, cy⟩ := p
    rcases hq : quality_check det en cy with e | b
    · simp only [valid_pairs_loop, hq] at h
      cases h
    · cases b
      · simp only [valid_pairs_loop, hq] at h
        exact ih _ _ h hacc
      · simp only [valid_pairs_loop, hq] at h
        refine ih _ _ h ?_
        intro r hr
        rcases List.mem_append.mp hr with hr | hr
        · exact hacc r hr
        · simp only [List.mem_singleton] at hr
          rw [hr]

/-- Every accepted triple of process_url_pair carries the English page URL
of the pair it came from. -/
theorem process_url_pair_url (request_delay : Option Nat)
    (fetchDoc : String → Option (List Node)) (mdf : Node → String)
    (det : String → Option String) (en_url cy_url : String)
    (res : List (String × String × String))
    (h : process_url_pair request_delay fetchDoc mdf det en_url cy_url = .ok res) :
    ∀ r ∈ res, r.2.2 = en_url := by
  refine valid_pairs_loop_url det en_url _ [] res h ?_
  intro r hr
  cases hr

/-! ## Claim theorems -/

/-- Claim C3: for every pair of texts whose whitespace-token counts are not
both below 10 and whose length ratio min/max is strictly below 0.2,
quality_check rejects (returns false); no later rule is consulted, so the
result holds for every detector. -/
theorem c3_length_mismatch_rejects (det : String → Option String) (en cy : String)
    (h1 : ¬((pySplit en.toList).length < 10 ∧ (pySplit cy.toList).length < 10))
    (h2 : mkRat (min (pySplit en.toList).length (pySplit cy.toList).length)
        (max (pySplit en.toList).length (pySplit cy.toList).length) < mkRat 1 5) :
    quality_check det en cy = .ok false := by
  have hmax : ¬ max (pySplit en.toList).length (pySplit cy.toList).length = 0 := by
    intro h0
    rw [Nat.max_eq_zero_iff] at h0
    exact h1 ⟨by omega, by omega⟩
  simp only [quality_check]
  rw [if_neg hmax, if_neg (fun hc => h1 ⟨hc.1, hc.2.1⟩), if_pos h2]

/-- Witness for C3: an English text of 50 tokens against a Welsh text of 5
tokens has ratio 1/10 and is rejected. -/
theorem c3_witness :
    quality_check detNone
      "a a a a a a a a a a a a a a a a a a a a a a a a a a a a a a a a a a a a a a a a a a a a a a a a a a"
      "gair un dau tri pedwar" = .ok false :=
  c3_length_mismatch_rejects detNone _ _ (by decide) (by decide)

/-- Claim C4: when both texts have fewer than 10 whitespace tokens and the
length ratio exceeds 0.5, quality_check accepts, before any later rule is
consulted (the detector is arbitrary and never used). -/
theorem c4_short_text_accepts (det : String → Option String) (en cy : String)
    (h1 : (pySplit en.toList).length < 10) (h2 : (pySplit cy.toList).length < 10)
    (h3 : mkRat 1 2 < mkRat (min (pySplit en.toList).length (pySplit cy.toList).length)
        (max (pySplit en.toList).length (pySplit cy.toList).length)) :
    quality_check det en cy = .ok true := by
  have hmax : ¬ max (pySplit en.toList).length (pySplit cy.toList).length = 0 := by
    intro h0
    rw [h0, Rat.mkRat_zero] at h3
    exact absurd h3 (by decide)
  simp only [quality_check]
  rw [if_neg hmax, if_pos ⟨h1, h2, h3⟩]

/-- Witness for C4: en has 3 tokens, cy has 4, ratio 3/4 is above 1/2, so
the pair is accepted. -/
theorem c4_witness : quality_check detNone "The cat sat" "Y gath yn eistedd" = .ok true :=
  c4_short_text_accepts detNone _ _ (by decide) (by decide) (by decide)

/-- Claim C6: quality_check is not symmetric: swapping the two texts checks
them against the other language's fixed word list, and there are texts
accepted one way and rejected the other. -/
theorem c6_not_symmetric :
    ∃ A B, quality_check detNone A B = .ok true ∧ quality_check detNone B A = .ok false :=
  ⟨"the cat and the dog went to the town 2024",
   "mae y dref yn hapus iawn gyda pobl lon 2024", by decide, by decide⟩

/-- Claim C8: when the fetch or parse inside scrape_page raises, scrape_page
returns the empty sequence; it is a total function, so no exception
propagates to the caller (this holds whether or not the REQUEST_DELAY name
is bound). -/
theorem c8_scrape_failure_empty (request_delay : Option Nat)
    (fetchDoc : String → Option (List Node)) (mdf : Node → String) (url : String)
    (h : fetchDoc url = none) :
    scrape_page request_delay fetchDoc mdf url = [] := by
  cases request_delay with
  | none => rfl
  | some d => simp [scrape_page, h]

/-- Witness for C8 at a concrete failing fetch. -/
theorem c8_witness :
    scrape_page (some 1) (fun _ => none) (fun _ => "") "https://www.gov.wales/x" = [] :=
  c8_scrape_failure_empty (some 1) (fun _ => none) (fun _ => "") "https://www.gov.wales/x" rfl

/-- Claim C2 (code bug): script.py line 80 evaluates the name REQUEST_DELAY,
which is bound nowhere in the module, so every call of scrape_page raises
NameError inside its try block and returns the empty list: even when the
fetch and parse would succeed and the document carries matching articles,
no block is returned, contradicting the contract. The second conjunct shows
the concrete document does carry exactly one matching article that
get_announcement_articles would convert. -/
theorem c2_request_delay_undefined :
    (∀ (fetchDoc : String → Option (List Node)) (mdf : Node → String) (url : String),
      scrape_page REQUEST_DELAY fetchDoc mdf url = []) ∧
    ∀ mdf : Node → String,
      get_announcement_articles mdf oneArticleDoc =
        [mdf (Node.elem "div" ["announcement-item__article"] [Node.text "Mae y the"])] := by
  constructor
  · intro fetchDoc mdf url
    rfl
  · intro mdf
    rfl

/-- Claim C10: quality_check divides by max(len_en, len_cy) unguarded, so it
is total exactly when at least one text has a whitespace token: with both
texts tokenless the ZeroDivisionError branch is reached, and otherwise every
branch returns a Boolean. -/
theorem c10_division_by_zero_guard (det : String → Option String) (en cy : String) :
    (pySplit en.toList = [] ∧ pySplit cy.toList = [] →
      quality_check det en cy = .error "ZeroDivisionError") ∧
    ((pySplit en.toList ≠ [] ∨ pySplit cy.toList ≠ []) →
      ∃ b, quality_check det en cy = .ok b) := by
  constructor
  · rintro ⟨he, hc⟩
    simp only [quality_check, he, hc]
    rfl
  · intro h
    have hmax : ¬ max (pySplit en.toList).length (pySplit cy.toList).length = 0 := by
      intro h0
      rw [Nat.max_eq_zero_iff, List.length_eq_zero, List.length_eq_zero] at h0
      rcases h with h | h
      · exact h h0.1
      · exact h h0.2
    simp only [quality_check]
    rw [if_neg hmax]
    repeat' first
      | exact ⟨true, rfl⟩
      | exact ⟨false, rfl⟩
      | split

/-- Witness for C10: two empty texts raise, one token is enough to return. -/
theorem c10_witness :
    quality_check detNone "" "" = .error "ZeroDivisionError" ∧
    ∃ b, quality_check detNone "gair" "" = .ok b :=
  ⟨(c10_division_by_zero_guard detNone "" "").1 ⟨rfl, rfl⟩,
   (c10_division_by_zero_guard detNone "gair" "").2 (Or.inl (by decide))⟩

/-- Claim C5: whenever control reaches the shared-evidence rule (rules 1 to
4 are all inconclusive: the short-text rule does not fire, the ratio is not
below 0.2, both common-word intersections are inhabited and detection does
not reject), a shared case-folded capitalized token or a shared digit run
forces acceptance; and the pair about London 2024 is accepted. -/
theorem c5_shared_evidence_accepts :
    (∀ (det : String → Option String) (en cy : String),
      ¬((pySplit en.toList).length < 10 ∧ (pySplit cy.toList).length < 10 ∧
        mkRat 1 2 < mkRat (min (pySplit en.toList).length (pySplit cy.toList).length)
          (max (pySplit en.toList).length (pySplit cy.toList).length)) →
      ¬(mkRat (min (pySplit en.toList).length (pySplit cy.toList).length)
          (max (pySplit en.toList).length (pySplit cy.toList).length) < mkRat 1 5) →
      ¬(common_en_words.filter fun w =>
          (pySplit (en.toList.map lowerChar)).contains w).length = 0 →
      ¬(common_cy_words.filter fun w =>
          (pySplit (cy.toList.map lowerChar)).contains w).length = 0 →
      (∀ e c, det en = some e → det cy = some c → ¬(e ≠ "en" ∧ c ≠ "cy")) →
      (((extract_probable_entities en.toList).filter fun x =>
          (extract_probable_entities cy.toList).contains x) ≠ [] ∨
        ((digitRuns en.toList).filter fun x => (digitRuns cy.toList).contains x) ≠ []) →
      quality_check det en cy = .ok true) ∧
    ∀ det, quality_check det "Visit London in 2024" "Ymweld â London yn 2024" = .ok true := by
  constructor
  · intro det en cy h1 h2 h3en h3cy h4 h5
    have hmax : ¬ max (pySplit en.toList).length (pySplit cy.toList).length = 0 := by
      intro h0
      apply h2
      have h0' := Nat.max_eq_zero_iff.mp h0
      rw [h0'.1, h0'.2]
      decide
    simp only [quality_check]
    rw [if_neg hmax, if_neg h1, if_neg h2, if_neg (fun hc => hc.elim h3en h3cy)]
    rcases hde : det en with _ | e
    · simp only [hde]
      rw [if_pos h5]
    · rcases hdc : det cy with _ | c
      · simp only [hde, hdc]
        rw [if_pos h5]
      · simp only [hde, hdc]
        rw [if_neg (h4 e c hde hdc), if_pos h5]
  · intro det
    simp only [quality_check]
    rw [if_neg (by decide), if_pos (by decide)]

/-- Witness for C5: a 12-token pair that reaches rule 5 and shares the
entity london, and the London 2024 pair, are both accepted. -/
theorem c5_witness :
    quality_check detNone "London and the people we met have a lot of news today"
      "Mae pobl London yn hapus iawn gyda y newyddion mawr heddiw hefyd" = .ok true ∧
    quality_check detNone "Visit London in 2024" "Ymweld â London yn 2024" = .ok true :=
  ⟨c5_shared_evidence_accepts.1 detNone _ _ (by decide) (by decide) (by decide) (by decide)
      (fun e c h => Option.noConfusion h) (by decide),
   c5_shared_evidence_accepts.2 detNone⟩

/-- Claim C1 (amended): the sitemap loop of main has no per-sitemap
exception handler, so enumeration aborts at the first failing child
sitemap (the error propagates to the top-level handler and later siblings
contribute nothing); all sibling URLs appear, as their concatenation,
exactly when every child sitemap fetches and parses successfully. -/
theorem c1_sitemap_failure_aborts :
    (∀ (fetchUrls : String → Option (List String)) (sitemaps : List String),
      (∀ u ∈ sitemaps, (fetchUrls u).isSome) →
      collect_pages fetchUrls sitemaps =
        .ok ((sitemaps.map fun u => (fetchUrls u).getD []).flatten)) ∧
    ∀ (fetchUrls : String → Option (List String)) (pre : List String) (u : String)
      (post : List String),
      (∀ v ∈ pre, (fetchUrls v).isSome) → fetchUrls u = none →
      collect_pages fetchUrls (pre ++ u :: post) = .error u := by
  constructor
  · intro f sitemaps h
    induction sitemaps with
    | nil => rfl
    | cons v rest ih =>
      have hv := h v (List.mem_cons_self v rest)
      rcases hfv : f v with _ | urls
      · rw [hfv] at hv
        simp at hv
      · have ih' := ih fun u hu => h u (List.mem_cons_of_mem _ hu)
        simp only [collect_pages, hfv, ih', List.map_cons, List.flatten_cons,
          Option.getD_some]
  · intro f pre u post hpre hu
    induction pre with
    | nil => simp only [List.nil_append, collect_pages, hu]
    | cons v rest ih =>
      have hv := hpre v (List.mem_cons_self v rest)
      rcases hfv : f v with _ | urls
      · rw [hfv] at hv
        simp at hv
      · have ih' := ih fun w hw => hpre w (List.mem_cons_of_mem _ hw)
        simp only [List.cons_append, collect_pages, hfv, List.append_eq, ih']

/-- Witness for C1: both halves of the amended claim at concrete sitemaps. -/
theorem c1_witness :
    collect_pages c1FetchOk ["s1", "s2"] = .ok ["p1", "p2", "p3"] ∧
    collect_pages c1FetchOk ["s1", "s3", "s2"] = .error "s3" := by
  constructor
  · exact (c1_sitemap_failure_aborts.1 c1FetchOk ["s1", "s2"] (by decide)).trans (by decide)
  · exact c1_sitemap_failure_aborts.2 c1FetchOk ["s1"] "s3" ["s2"] (by decide) (by decide)

/-- Counterexample to C1 as stated: s2 is a non-failing sibling of the
failing sitemap s1, yet enumeration produces no URL list at all, so the URL
p1 of the non-failing sibling does not appear in any enumerated result. -/
theorem c1_counterexample :
    (c1FetchFail "s2").isSome = true ∧
    ¬∃ L, collect_pages c1FetchFail ["s1", "s2"] = .ok L ∧ "p1" ∈ L := by
  constructor
  · rfl
  · rintro ⟨L, hL, _⟩
    rw [show collect_pages c1FetchFail ["s1", "s2"] = .error "s1" by decide] at hL
    cases hL

/-- Claim C9: when every resolver call yields no pair, Phase 1 produces the
empty pair list, no Phase 2 unit is submitted, and the output file (opened
for the whole run in truncating mode) ends the run with empty content. -/
theorem c9_phase_isolation (resolver : String → Option (String × String))
    (request_delay : Option Nat) (fetchDoc : String → Option (List Node))
    (mdf : Node → String) (det : String → Option String) (all_page_urls : List String)
    (h : ∀ u ∈ all_page_urls, resolver u = none) :
    main_phases resolver request_delay fetchDoc mdf det all_page_urls = ([], 0, "") := by
  have hf : all_page_urls.filterMap resolver = [] := by
    induction all_page_urls with
    | nil => rfl
    | cons v rest ih =>
      rw [List.filterMap_cons, h v (List.mem_cons_self v rest)]
      exact ih fun u hu => h u (List.mem_cons_of_mem _ hu)
  simp only [main_phases, hf, phase2_lines, List.map_nil, List.flatten_nil]
  rfl

/-- Witness for C9 with two pages and an always-failing resolver. -/
theorem c9_witness :
    main_phases (fun _ => none) (some 0) (fun _ => none) (fun _ => "") detNone
      ["https://a", "https://b"] = ([], 0, "") :=
  c9_phase_isolation _ _ _ _ _ _ fun _ _ => rfl

/-- Claim C7: every record the pipeline writes is a single line (no newline
inside the record) that parses back as a JSON object with exactly the keys
en, cy, url, recovering both block texts verbatim; characters outside the
escaped set, all non-ASCII included, are emitted literally; and the url
field of every accepted triple is the English page URL of its pair. -/
theorem c7_output_record_roundtrip :
    (∀ en cy url : String,
      '\n' ∉ recordLine en cy url ∧
      parseRecord (recordLine en cy url) = some (en.toList, cy.toList, url.toList)) ∧
    (∀ ch : Char, ¬ch.toNat < 0x20 → ch ≠ '"' → ch ≠ '\\' → escapeChar ch = [ch]) ∧
    ∀ (request_delay : Option Nat) (fetchDoc : String → Option (List Node))
      (mdf : Node → String) (det : String → Option String) (en_url cy_url : String)
      (res : List (String × String × String)),
      process_url_pair request_delay fetchDoc mdf det en_url cy_url = .ok res →
      ∀ r ∈ res, r.2.2 = en_url := by
  refine ⟨fun en cy url => ⟨recordLine_no_newline en cy url, parseRecord_recordLine en cy url⟩,
    ?_, process_url_pair_url⟩
  intro ch h8 hq hb
  have h3 : ¬ch = '\x08' := fun hc => h8 (by rw [hc]; decide)
  have h4 : ¬ch = '\x0c' := fun hc => h8 (by rw [hc]; decide)
  have h5 : ¬ch = '\n' := fun hc => h8 (by rw [hc]; decide)
  have h6 : ¬ch = '\x0d' := fun hc => h8 (by rw [hc]; decide)
  have h7 : ¬ch = '\t' := fun hc => h8 (by rw [hc]; decide)
  simp only [escapeChar, if_neg hb, if_neg hq, if_neg h3, if_neg h4, if_neg h5,
    if_neg h6, if_neg h7, if_neg h8]

/-- Witness for C7: a concrete record with Welsh diacritics, a quote and a
newline round-trips; a non-ASCII character is written literally; the
accepted triples of a concrete pair carry the English URL. -/
theorem c7_witness :
    '\n' ∉ recordLine "Ysgol ŵyl â" "chi \"fi\"\n" "https://www.gov.wales/x" ∧
    parseRecord (recordLine "Ysgol ŵyl â" "chi \"fi\"\n" "https://www.gov.wales/x") =
      some ("Ysgol ŵyl â".toList, "chi \"fi\"\n".toList,
        "https://www.gov.wales/x".toList) ∧
    escapeChar 'â' = ['â'] ∧
    ∀ r ∈ [("Mae y the", "Mae y the", "https://e")],
      (r : String × String × String).2.2 = "https://e" :=
  ⟨(c7_output_record_roundtrip.1 _ _ _).1,
   (c7_output_record_roundtrip.1 _ _ _).2,
   c7_output_record_roundtrip.2.1 'â' (by decide) (by decide) (by decide),
   c7_output_record_roundtrip.2.2 (some 0) (fun _ => some oneArticleDoc)
     (fun _ => "Mae y the") detNone "https://e" "https://c"
     [("Mae y the", "Mae y the", "https://e")] (by decide)⟩

end WelshScraper
